import Mathlib

/-!
Verification of the cronServer reconciliation job.

The embedded code is `src/api/update-ratings.js` (the module with the job
lifecycle: guard flag, stop flag, progress log). `src/server.js` holds a
near-duplicate revision of `findAnimeId`, `getShikimoriData` and the record
loop with the same per-record control flow.

External collaborators (the Shikimori GraphQL transport and the MongoDB
collection) are modelled as oracle functions collected in a `World`; the
control flow, the counters, the progress log and the job lifecycle are
translated statement by statement.  Every `log(message, level)` call and
every outbound call is recorded in an event trace so that theorems can speak
about which external calls a run issues and which log entries it appends.
-/

deriving instance DecidableEq for Except

namespace CronServer

/-- A document of the `anime_list` collection, restricted to the fields the
job reads: the Mongo key (`_id`) and the three candidate-title fields.
A field holds `none` when absent; the JS truthiness test `if (anime.Title)`
additionally rejects the empty string, which `pushTitle` below reflects. -/
structure AnimeRecord where
  key : Nat
  Title : Option String
  TitleEng : Option String
  title : Option String
  deriving DecidableEq

/-- JS `a || b` on nullable strings: `null`, `undefined` and `""` are falsy. -/
def jsOrStr (a b : Option String) : Option String :=
  match a with
  | some s => if s = ("") then b else some s
  | none => b

/-- The title shown in the loop's log lines:
`anime.Title || anime.TitleEng || anime.title`. -/
def displayTitle (a : AnimeRecord) : Option String :=
  jsOrStr a.Title (jsOrStr a.TitleEng a.title)

/-- One `if (anime.F) searchTitles.push(anime.F)` statement. -/
def pushTitle (o : Option String) : List String :=
  match o with
  | some s => if s = ("") then [] else [s]
  | none => []

/-- The `searchTitles` array built at the top of `findAnimeId`. -/
def searchTitles (a : AnimeRecord) : List String :=
  pushTitle a.Title ++ pushTitle a.TitleEng ++ pushTitle a.title

/-- One element of the GraphQL search response list `data.data.animes`. -/
structure SearchResult where
  id : String
  name : Option String
  russian : Option String
  deriving DecidableEq

/-- Outcome of one search `axios.post`, as `findAnimeId` distinguishes it:
the transport throws; the response has no `data.data.animes` value
(`!results`, logged and skipped); or it carries a (possibly empty) list. -/
inductive SearchOutcome where
  | transportError (msg : String)
  | noData
  | results (rs : List SearchResult)
  deriving DecidableEq

/-- Whether the outcome is a non-empty result list (the only case in which
`findAnimeId` resolves on this title). -/
def nonEmptyResults : SearchOutcome → Bool
  | .results (_ :: _) => true
  | _ => false

/-- ASCII lowercasing of one character — the model of JS `toLowerCase` used
for the case-normalized comparison. -/
def lowerChar (c : Char) : Char :=
  if 65 ≤ c.toNat ∧ c.toNat ≤ 90 then Char.ofNat (c.toNat + 32) else c

/-- A string lowercased, as its character sequence (the form in which the
equality test compares the two sides). -/
def lowerStr (s : String) : List Char :=
  s.data.map lowerChar

/-- The exact-match test of the inner result loop:
`resultRussian === searchTitleLower || resultName === searchTitleLower`,
where each side is lowercased and a missing name contributes `''`. -/
def matchesTitle (t : String) (r : SearchResult) : Bool :=
  (lowerStr (r.russian.getD ("")) = lowerStr t) || (lowerStr (r.name.getD ("")) = lowerStr t)

inductive LogLevel where
  | info
  | warn
  | error
  deriving DecidableEq

/-- One `log(message, level)` call site of `api/update-ratings.js`; the
values interpolated into the message appear as constructor arguments. -/
inductive LogMsg where
  | noTitle (a : AnimeRecord)
  | searching (t : String)
  | noResults (t : String)
  | foundResults (n : Nat) (t : String)
  | exactMatch (t id : String)
  | bestGuess (t : String) (shown : Option String) (id : String)
  | searchEmptyCrash (t : String)
  | searchError (t msg : String)
  | fetchingDetail (id : String)
  | rawResponse (id : String)
  | noAnimeData (id : String)
  | fetchSuccess (id : String)
  | detailApiError (id msg : String)
  | alreadyInProgress
  | connecting
  | fetchingList
  | noAnimeFound
  | foundCount (n : Nat)
  | updatingDb (t : Option String)
  | updatedMsg (i n : Nat) (t : Option String)
  | failedMsg (i n : Nat) (t : Option String)
  | notFoundMsg (i n : Nat) (t : Option String)
  | updateFinished
  | errorInUpdate (msg : String)
  | closing
  deriving DecidableEq

/-- An entry of the `logStream` buffer.  The source also stores an ISO
timestamp; no claim reads it, and entries stay in append order. -/
structure LogEntry where
  msg : LogMsg
  level : LogLevel
  deriving DecidableEq

/-- Trace events of a run: progress-log appends plus ghost markers for each
outbound call and for the start of each record's loop iteration. -/
inductive Ev where
  | logEntry (e : LogEntry)
  | searchCall (t : String)
  | detailCall (id : String)
  | upsertCall (key : Nat)
  | beginRecord (i : Nat)
  deriving DecidableEq

/-- Shorthand for a progress-log append event. -/
def lg (m : LogMsg) (l : LogLevel) : Ev :=
  .logEntry ⟨m, l⟩

/-- The log entries contained in a trace, in order. -/
def logsOf (evs : List Ev) : List LogEntry :=
  evs.filterMap fun e =>
    match e with
    | .logEntry l => some l
    | _ => none

/-- The titles for which a search call was issued, in order. -/
def searchedOf (evs : List Ev) : List String :=
  evs.filterMap fun e =>
    match e with
    | .searchCall t => some t
    | _ => none

/-- The indices of the records whose loop iteration began, in order. -/
def beginsOf (evs : List Ev) : List Nat :=
  evs.filterMap fun e =>
    match e with
    | .beginRecord i => some i
    | _ => none

/-- The outbound-call events of a trace (search, detail fetch, upsert). -/
def externalCalls (evs : List Ev) : List Ev :=
  evs.filter fun e =>
    match e with
    | .searchCall _ => true
    | .detailCall _ => true
    | .upsertCall _ => true
    | _ => false

/-- One iteration of the `for (const title of searchTitles)` loop of
`findAnimeId`, given the outcome of this title's search call.  On a
non-empty result list the inner loop returns the first exact match, else
`results[0].id`.  On an empty list the code reaches
`results[0].russian` in the best-guess log line, which raises a TypeError
that the surrounding catch logs as a search error — so an empty list falls
through to the next title like a transport error does. -/
def tryTitle (t : String) (o : SearchOutcome) : Option String × List Ev :=
  let pre : List Ev := [lg (.searching t) .info, .searchCall t]
  match o with
  | .transportError msg => (none, pre ++ [lg (.searchError t msg) .error])
  | .noData => (none, pre ++ [lg (.noResults t) .warn])
  | .results rs =>
    let pre := pre ++ [lg (.foundResults rs.length t) .info]
    match rs with
    | [] => (none, pre ++ [lg (.searchEmptyCrash t) .error])
    | r :: rest =>
      match (r :: rest).find? (fun x => matchesTitle t x) with
      | some m => (some m.id, pre ++ [lg (.exactMatch t m.id) .info])
      | none =>
        (some r.id, pre ++ [lg (.bestGuess t (jsOrStr r.russian r.name) r.id) .info])

/-- The title loop of `findAnimeId`: try each candidate title in order,
stopping at the first one that resolves. -/
def findAnimeIdGo (search : String → SearchOutcome) : List String → Option String × List Ev
  | [] => (none, [])
  | t :: ts =>
    match tryTitle t (search t) with
    | (some id, evs) => (some id, evs)
    | (none, evs) =>
      let p := findAnimeIdGo search ts
      (p.1, evs ++ p.2)

/-- `findAnimeId(anime)`: build the candidate-title list; with no titles,
log a warning and return null without any search call; otherwise run the
title loop. -/
def findAnimeId (search : String → SearchOutcome) (a : AnimeRecord) : Option String × List Ev :=
  if searchTitles a = [] then (none, [lg (.noTitle a) .warn])
  else findAnimeIdGo search (searchTitles a)

/-- A genre object of the detail response (and of the normalized bundle —
the code maps it field by field onto an identical shape). -/
structure Genre where
  name : Option String
  russian : Option String
  deriving DecidableEq

structure StudioObj where
  name : String
  deriving DecidableEq

structure ExternalLink where
  kind : String
  url : String
  deriving DecidableEq

/-- One element of the detail response list `data.data.animes`.  The score
is a JSON number or null; the job passes it through without computing with
it, so it is embedded as an opaque `Option Int`. -/
structure DetailAnime where
  id : String
  score : Option Int
  episodes : Option Int
  status : String
  url : String
  genres : List Genre
  studios : List StudioObj
  externalLinks : List ExternalLink
  deriving DecidableEq

/-- The payload of a successful detail `axios.post`, as `getShikimoriData`
distinguishes it when evaluating `response.data.data?.animes[0]`. -/
inductive DetailPayload where
  | noData
  | animesNull
  | animes (l : List DetailAnime)
  deriving DecidableEq

/-- Outcome of one detail `axios.post`: the transport throws, or a response
payload arrives. -/
inductive DetailOutcome where
  | transportError (msg : String)
  | ok (p : DetailPayload)
  deriving DecidableEq

/-- The normalized bundle `getShikimoriData` returns on success. -/
structure ShikiData where
  score : Option Int
  episodes : Option Int
  status : String
  url : String
  genres : List Genre
  studios : List String
  externalLinks : List ExternalLink
  deriving DecidableEq

/-- The object literal built from `anime` on the success path of
`getShikimoriData`. -/
def mkShikiData (a : DetailAnime) : ShikiData :=
  { score := a.score
    episodes := a.episodes
    status := a.status
    url := a.url
    genres := a.genres.map fun g => { name := g.name, russian := g.russian }
    studios := a.studios.map fun s => s.name
    externalLinks := a.externalLinks.map fun l => { kind := l.kind, url := l.url } }

/-- `getShikimoriData(animeId)`.  A transport error is caught and logged; a
missing payload or an empty `animes` list makes `anime` undefined (warned,
null returned); a missing `animes` value makes the indexing expression
throw a TypeError, which the same catch turns into null.  Every failure
mode returns `none`. -/
def getShikimoriData (animeId : String) (o : DetailOutcome) : Option ShikiData × List Ev :=
  let pre : List Ev := [lg (.fetchingDetail animeId) .info, .detailCall animeId]
  match o with
  | .transportError msg => (none, pre ++ [lg (.detailApiError animeId msg) .error])
  | .ok p =>
    let pre := pre ++ [lg (.rawResponse animeId) .info]
    match p with
    | .noData => (none, pre ++ [lg (.noAnimeData animeId) .warn])
    | .animesNull => (none, pre ++ [lg (.detailApiError animeId ("TypeError")) .error])
    | .animes [] => (none, pre ++ [lg (.noAnimeData animeId) .warn])
    | .animes (a :: _) => (some (mkShikiData a), pre ++ [lg (.fetchSuccess animeId) .info])

/-- Outcome of one `collection.updateOne` call: it resolves (with the
matched-document count reduced to whether the filter matched), or it
rejects and the exception propagates out of the loop body. -/
inductive UpsertOutcome where
  | ok (matched : Bool)
  | err (msg : String)
  deriving DecidableEq

/-- MongoDB `updateOne` against a collection currently holding the given
`_id` keys: a filter that matches no document is not an error — the call
resolves with `matchedCount: 0`.  (Semantics of the external store
interface; the job never inspects the matched count.) -/
def mongoUpdateOne (storeKeys : List Nat) (key : Nat) : UpsertOutcome :=
  .ok (storeKeys.contains key)

/-- Oracles for the external collaborators consulted during one run. -/
structure World where
  search : String → SearchOutcome
  detail : String → DetailOutcome
  upsert : Nat → UpsertOutcome

/-- Which of the three counters one record's processing increments. -/
inductive ProcOutcome where
  | updated
  | failed
  | notFound
  deriving DecidableEq

/-- The `stats` object of a run. -/
structure Stats where
  total : Nat
  updated : Nat
  failed : Nat
  notFound : Nat
  deriving DecidableEq

/-- The `stats.updated++` / `stats.failed++` / `stats.notFound++` statement
chosen by the loop body. -/
def bump (s : Stats) : ProcOutcome → Stats
  | .updated => { s with updated := s.updated + 1 }
  | .failed => { s with failed := s.failed + 1 }
  | .notFound => { s with notFound := s.notFound + 1 }

/-- The sum of the three outcome counters. -/
def sumS (s : Stats) : Nat :=
  s.updated + s.failed + s.notFound

/-- The body of iteration `i` (of `n`) of the record loop in
`updateRatings`, excluding the stop check and the inter-record delay.
`Except.error` means the iteration raised — only `updateOne` can, since
`findAnimeId` and `getShikimoriData` catch their own failures. -/
def processRecord (w : World) (i n : Nat) (a : AnimeRecord) : Except String ProcOutcome × List Ev :=
  match findAnimeId w.search a with
  | (none, evs) => (.ok .notFound, evs ++ [lg (.notFoundMsg (i + 1) n (displayTitle a)) .warn])
  | (some id, evs) =>
    match getShikimoriData id (w.detail id) with
    | (none, evs2) => (.ok .failed, evs ++ evs2 ++ [lg (.failedMsg (i + 1) n (displayTitle a)) .error])
    | (some _, evs2) =>
      let evs3 := evs ++ evs2 ++ [lg (.updatingDb (displayTitle a)) .info, Ev.upsertCall a.key]
      match w.upsert a.key with
      | .err e => (.error e, evs3)
      | .ok _ => (.ok .updated, evs3 ++ [lg (.updatedMsg (i + 1) n (displayTitle a)) .info])

/-- Result of the record loop.  `stopFlag` is the value of `shouldStop`
when the loop ends; `exitedByStop` records which conjunct of
`i < animeList.length && !shouldStop` ended the loop (false on exhaustion
or on an exception); `err` is the exception that aborted the loop, if any. -/
structure LoopOut where
  stats : Stats
  stopFlag : Bool
  exitedByStop : Bool
  trace : List Ev
  err : Option String
  deriving DecidableEq

/-- The record loop `for (let i = 0; i < animeList.length && !shouldStop; i++)`.
`stop` is the current `shouldStop` value; `sd i` states whether a stop
request is delivered while record `i` is being processed (the handler sets
the flag at an await point inside the iteration, so it becomes observable
at the next loop check). -/
def runLoop (w : World) (sd : Nat → Bool) (n : Nat) :
    Nat → Stats → Bool → List Ev → List AnimeRecord → LoopOut
  | _, s, stop, tr, [] => ⟨s, stop, false, tr, none⟩
  | i, s, stop, tr, a :: rest =>
    if stop then ⟨s, stop, true, tr, none⟩
    else
      match processRecord w i n a with
      | (.error e, evs) => ⟨s, stop, false, tr ++ Ev.beginRecord i :: evs, some e⟩
      | (.ok o, evs) =>
        runLoop w sd n (i + 1) (bump s o) (stop || sd i) (tr ++ Ev.beginRecord i :: evs) rest

/-- The loop of a run over its snapshot, started with
`stats = { total: animeList.length, updated: 0, failed: 0, notFound: 0 }`
and the `shouldStop` value left after enumeration. -/
def loopOf (w : World) (sd : Nat → Bool) (stopEnum : Bool) (recs : List AnimeRecord) : LoopOut :=
  runLoop w sd recs.length 0 ⟨recs.length, 0, 0, 0⟩ stopEnum [] recs

/-- What `updateRatings` returns when it does not throw: the bare
`{ error: ... }` object (guard and empty-store paths — no stats at all) or
the final report `{ message, stats, stopped }`. -/
inductive RunResult where
  | errorResult (msg : String)
  | report (stats : Stats) (stopped : Bool) (message : String)
  deriving DecidableEq

/-- The module-level mutable state of `api/update-ratings.js` that survives
between calls: the `isUpdating` guard flag and the `logStream` buffer. -/
structure GState where
  isUpdating : Bool
  logStream : List LogEntry
  deriving DecidableEq

/-- The body of the `try` block of `updateRatings` after the guard and the
`logStream.length = 0` reset: connect, enumerate the snapshot, loop,
report.  `connectR` is the outcome of `client.connect()`, `findR` of
`collection.find({}).toArray()`; an `Except.error` result means the body
raised and the error is rethrown after the `finally`.  The returned events
are the whole run's trace; their log entries form the final `logStream`
(the buffer was reset on entry, and the `finally` always logs the closing
line because `client` was assigned before any awaited call). -/
def runAccepted (w : World) (connectR : Except String Unit)
    (findR : Except String (List AnimeRecord)) (stopEnum : Bool)
    (sd : Nat → Bool) : Except String RunResult × List Ev :=
  let evs : List Ev := [lg .connecting .info]
  match connectR with
  | .error e => (.error e, evs ++ [lg (.errorInUpdate e) .error, lg .closing .info])
  | .ok _ =>
    let evs := evs ++ [lg .fetchingList .info]
    match findR with
    | .error e => (.error e, evs ++ [lg (.errorInUpdate e) .error, lg .closing .info])
    | .ok [] =>
      (.ok (.errorResult ("No anime found in database")),
       evs ++ [lg .noAnimeFound .error, lg .closing .info])
    | .ok (a :: rest) =>
      let recs := a :: rest
      let evs := evs ++ [lg (.foundCount recs.length) .info]
      let lo := loopOf w sd stopEnum recs
      match lo.err with
      | some e =>
        (.error e, evs ++ lo.trace ++ [lg (.errorInUpdate e) .error, lg .closing .info])
      | none =>
        (.ok (.report lo.stats lo.stopFlag
               (if lo.stopFlag then ("Update stopped") else ("Update completed"))),
         evs ++ lo.trace ++ [lg .updateFinished .info, lg .closing .info])

/-- `updateRatings()`.  If `isUpdating` is set, the call logs a warning
onto the in-progress run's `logStream` and returns the
already-in-progress error without touching anything else.  Otherwise the
guard is taken, `shouldStop` is cleared (so `stopEnum`/`sd` describe only
requests arriving during this run), the log is reset, and the body runs;
the `finally` clears `isUpdating` on every exit path.  (The unconditional
missing-token log line is appended before the reset and immediately wiped
by it, so it never reaches an observable state.)  Returns the result, the
final module state, and the run's event trace. -/
def updateRatings (w : World) (connectR : Except String Unit)
    (findR : Except String (List AnimeRecord)) (stopEnum : Bool)
    (sd : Nat → Bool) (st : GState) : Except String RunResult × GState × List Ev :=
  if st.isUpdating then
    (.ok (.errorResult ("Update already in progress")),
     ⟨true, st.logStream ++ [⟨.alreadyInProgress, .warn⟩]⟩, [])
  else
    let r := runAccepted w connectR findR stopEnum sd
    (r.1, ⟨false, logsOf r.2⟩, r.2)

/-! Concrete worlds and records used to instantiate the theorems below. -/

/-- A detail bundle returned for identifier `X`. -/
def d1 : DetailAnime := ⟨("X"), some 8, some 12, ("released"), ("/x"), [], [], []⟩

/-- A world in which the title `a` resolves exactly to id `X`, details are
always available, and every upsert succeeds. -/
def w1 : World :=
  { search := fun t => if t = ("a") then .results [⟨("X"), some ("a"), none⟩] else .noData
    detail := fun _ => .ok (.animes [d1])
    upsert := fun _ => .ok true }

/-- A record with one candidate title, `a`. -/
def rec1 : AnimeRecord := ⟨1, some ("a"), none, none⟩

/-- A record with no candidate titles. -/
def rec2 : AnimeRecord := ⟨2, none, none, none⟩

/-- A record whose only title, `x`, yields no search data, and whose second
title `b` returns one inexact result. -/
def rec3 : AnimeRecord := ⟨3, some ("x"), some ("b"), none⟩

/-- The single inexact result returned for title `b` in `w2`. -/
def r2 : SearchResult := ⟨("Y"), some ("bb"), none⟩

/-- A world where title `x` returns no data and title `b` returns `[r2]`. -/
def w2 : World :=
  { search := fun t => if t = ("b") then .results [r2] else .noData
    detail := w1.detail
    upsert := w1.upsert }

/-- Like `w1` but every upsert rejects (store write failure). -/
def wErr : World :=
  { search := w1.search, detail := w1.detail, upsert := fun _ => .err ("write failed") }

/-- Like `w1` but upserts run against an empty store: every key is missing,
so `updateOne` matches zero documents. -/
def wMiss : World :=
  { search := w1.search, detail := w1.detail, upsert := fun k => mongoUpdateOne [] k }

/-! Theorems. -/

theorem searchedOf_append (a b : List Ev) :
    searchedOf (a ++ b) = searchedOf a ++ searchedOf b := by
  simp [searchedOf]

/-- A title whose search outcome has no usable (non-empty) result list
resolves nothing; exactly one search call is issued for it. -/
theorem tryTitle_skip (t : String) (o : SearchOutcome) (h : nonEmptyResults o = false) :
    (tryTitle t o).1 = none ∧ searchedOf (tryTitle t o).2 = [t] := by
  match o with
  | .transportError m => exact ⟨rfl, by simp [tryTitle, searchedOf, lg]⟩
  | .noData => exact ⟨rfl, by simp [tryTitle, searchedOf, lg]⟩
  | .results [] => exact ⟨rfl, by simp [tryTitle, searchedOf, lg]⟩
  | .results (r :: rest) => simp [nonEmptyResults] at h

/-- A title whose search returns a non-empty list resolves immediately: to
the first exact match if one exists, else to the first result. -/
theorem tryTitle_hit (t : String) (r : SearchResult) (rs : List SearchResult) :
    (tryTitle t (.results (r :: rs))).1 =
      some (match (r :: rs).find? (fun x => matchesTitle t x) with
            | some m => m.id
            | none => r.id) ∧
    searchedOf (tryTitle t (.results (r :: rs))).2 = [t] := by
  cases hf : (r :: rs).find? (fun x => matchesTitle t x) with
  | none => simp [tryTitle, hf, searchedOf, lg]
  | some m => simp [tryTitle, hf, searchedOf, lg]

/-- The title loop resolves on the first title whose search returns a
non-empty result set, returning the first exact match's id (else the first
result's id), and searches exactly the titles up to and including it. -/
theorem findAnimeIdGo_first (search : String → SearchOutcome) :
    ∀ (titles : List String) (k : Nat) (hk : k < titles.length),
      (∀ t ∈ titles.take k, nonEmptyResults (search t) = false) →
      ∀ (r : SearchResult) (rs : List SearchResult),
        search (titles.get ⟨k, hk⟩) = .results (r :: rs) →
        (findAnimeIdGo search titles).1 =
          some (match (r :: rs).find? (fun x => matchesTitle (titles.get ⟨k, hk⟩) x) with
                | some m => m.id
                | none => r.id) ∧
        searchedOf (findAnimeIdGo search titles).2 = titles.take (k + 1) := by
  intro titles
  induction titles with
  | nil => intro k hk; exact absurd hk (by simp)
  | cons t ts ih =>
    intro k hk hprev r rs hres
    cases k with
    | zero =>
      have hres0 : search t = SearchOutcome.results (r :: rs) := by simpa using hres
      rcases h1 : tryTitle t (SearchOutcome.results (r :: rs)) with ⟨o1, evs1⟩
      have hhit := tryTitle_hit t r rs
      rw [h1] at hhit
      simp only at hhit
      obtain ⟨ho, hs⟩ := hhit
      subst ho
      simp only [findAnimeIdGo, hres0, h1]
      exact ⟨rfl, by simpa using hs⟩
    | succ k' =>
      have hmem : t ∈ (t :: ts).take (k' + 1) := by simp
      have hskip := tryTitle_skip t (search t) (hprev t hmem)
      rcases h1 : tryTitle t (search t) with ⟨o1, evs1⟩
      rw [h1] at hskip
      simp only at hskip
      obtain ⟨ho, hs⟩ := hskip
      subst ho
      have hk' : k' < ts.length := by simpa using hk
      have hprev' : ∀ x ∈ ts.take k', nonEmptyResults (search x) = false := by
        intro x hx
        exact hprev x (by simp [hx])
      have hres' : search (ts.get ⟨k', hk'⟩) = .results (r :: rs) := by
        simpa using hres
      have hrec := ih k' hk' hprev' r rs hres'
      simp only [findAnimeIdGo, List.get]
      rw [h1]
      refine ⟨by simpa using hrec.1, ?_⟩
      rw [searchedOf_append, hs, hrec.2]
      rfl

/-- C2: for every record with a non-empty candidate-title list, the matcher
tries titles in order and resolves on the first title whose search returns
a non-empty result set: it returns the id of the first result whose primary
or localized name, lowercased, equals the lowercased title, else the first
result's id; no later candidate title's search is issued. -/
theorem c2_first_nonempty_resolves (w : World) (a : AnimeRecord) (k : Nat)
    (hk : k < (searchTitles a).length)
    (hprev : ∀ t ∈ (searchTitles a).take k, nonEmptyResults (w.search t) = false)
    (r : SearchResult) (rs : List SearchResult)
    (hres : w.search ((searchTitles a).get ⟨k, hk⟩) = .results (r :: rs)) :
    (findAnimeId w.search a).1 =
      some (match (r :: rs).find? (fun x => matchesTitle ((searchTitles a).get ⟨k, hk⟩) x) with
            | some m => m.id
            | none => r.id) ∧
    searchedOf (findAnimeId w.search a).2 = (searchTitles a).take (k + 1) := by
  have hne : ¬ searchTitles a = [] := by
    intro h
    rw [h] at hk
    simp at hk
  simp only [findAnimeId, if_neg hne]
  exact findAnimeIdGo_first w.search (searchTitles a) k hk hprev r rs hres

/-- Witness for C2: `rec3`'s first title yields no data, its second title
returns one inexact result, which is accepted as the best guess. -/
theorem c2_witness :
    (findAnimeId w2.search rec3).1 =
      some (match [r2].find? (fun x => matchesTitle ((searchTitles rec3).get ⟨1, by decide⟩) x) with
            | some m => m.id
            | none => r2.id) ∧
    searchedOf (findAnimeId w2.search rec3).2 = (searchTitles rec3).take 2 :=
  c2_first_nonempty_resolves w2 rec3 1 (by decide) (by decide) r2 [] (by decide)

theorem bump_total (s : Stats) (o : ProcOutcome) : (bump s o).total = s.total := by
  cases o <;> rfl

theorem sumS_bump (s : Stats) (o : ProcOutcome) : sumS (bump s o) = sumS s + 1 := by
  cases o <;> simp [bump, sumS] <;> omega

/-- The loop never changes `stats.total`: it stays what it was set to at
enumeration time. -/
theorem runLoop_total (w : World) (sd : Nat → Bool) (n : Nat) :
    ∀ (recs : List AnimeRecord) (i : Nat) (s : Stats) (stop : Bool) (tr : List Ev),
      (runLoop w sd n i s stop tr recs).stats.total = s.total := by
  intro recs
  induction recs with
  | nil => intro i s stop tr; rfl
  | cons a rest ih =>
    intro i s stop tr
    cases stop with
    | true => simp [runLoop]
    | false =>
      rcases hp : processRecord w i n a with ⟨res, evs⟩
      cases res with
      | error e => simp [runLoop, hp]
      | ok o => simp [runLoop, hp, ih, bump_total]

/-- Each processed record adds exactly one to the counter sum, so the sum
never exceeds the number of records handed to the loop. -/
theorem runLoop_sum_le (w : World) (sd : Nat → Bool) (n : Nat) :
    ∀ (recs : List AnimeRecord) (i : Nat) (s : Stats) (stop : Bool) (tr : List Ev),
      sumS (runLoop w sd n i s stop tr recs).stats ≤ sumS s + recs.length := by
  intro recs
  induction recs with
  | nil => intro i s stop tr; simp [runLoop]
  | cons a rest ih =>
    intro i s stop tr
    cases stop with
    | true => simp [runLoop]
    | false =>
      rcases hp : processRecord w i n a with ⟨res, evs⟩
      cases res with
      | error e => simp [runLoop, hp]
      | ok o =>
        have h1 := ih (i + 1) (bump s o) (sd i) (tr ++ Ev.beginRecord i :: evs)
        have h2 := sumS_bump s o
        simp only [runLoop, hp, Bool.false_or, List.length_cons, if_neg Bool.false_ne_true]
        omega

/-- A run that ends with the stop flag still clear and no exception has
processed every record, each incrementing exactly one counter. -/
theorem runLoop_complete (w : World) (sd : Nat → Bool) (n : Nat) :
    ∀ (recs : List AnimeRecord) (i : Nat) (s : Stats) (stop : Bool) (tr : List Ev),
      (runLoop w sd n i s stop tr recs).err = none →
      (runLoop w sd n i s stop tr recs).stopFlag = false →
      sumS (runLoop w sd n i s stop tr recs).stats = sumS s + recs.length := by
  intro recs
  induction recs with
  | nil => intro i s stop tr _ _; simp [runLoop]
  | cons a rest ih =>
    intro i s stop tr herr hstop
    cases stop with
    | true => simp [runLoop] at hstop
    | false =>
      rcases hp : processRecord w i n a with ⟨res, evs⟩
      cases res with
      | error e => simp [runLoop, hp] at herr
      | ok o =>
        simp only [runLoop, hp, Bool.false_or, if_neg Bool.false_ne_true] at herr hstop ⊢
        have h1 := ih (i + 1) (bump s o) (sd i) (tr ++ Ev.beginRecord i :: evs) herr hstop
        have h2 := sumS_bump s o
        simp only [List.length_cons]
        omega

/-- If no upsert rejects, the loop body of each record resolves normally:
search and detail failures are already caught inside `findAnimeId` and
`getShikimoriData`. -/
theorem processRecord_no_err (w : World) (i n : Nat) (a : AnimeRecord)
    (hups : ∀ k, ∃ b, w.upsert k = UpsertOutcome.ok b) :
    ∃ o evs, processRecord w i n a = (Except.ok o, evs) := by
  rcases hf : findAnimeId w.search a with ⟨oid, evs⟩
  cases oid with
  | none =>
    refine ⟨ProcOutcome.notFound,
      evs ++ [lg (.notFoundMsg (i + 1) n (displayTitle a)) .warn], ?_⟩
    simp [processRecord, hf]
  | some id =>
    rcases hg : getShikimoriData id (w.detail id) with ⟨od, evs2⟩
    cases od with
    | none =>
      refine ⟨ProcOutcome.failed,
        evs ++ evs2 ++ [lg (.failedMsg (i + 1) n (displayTitle a)) .error], ?_⟩
      simp [processRecord, hf, hg]
    | some d =>
      obtain ⟨b, hb⟩ := hups a.key
      refine ⟨ProcOutcome.updated,
        (evs ++ evs2 ++ [lg (.updatingDb (displayTitle a)) .info, Ev.upsertCall a.key]) ++
          [lg (.updatedMsg (i + 1) n (displayTitle a)) .info], ?_⟩
      simp [processRecord, hf, hg, hb]

/-- If no upsert rejects, the loop never aborts with an exception. -/
theorem runLoop_no_err (w : World) (sd : Nat → Bool) (n : Nat)
    (hups : ∀ k, ∃ b, w.upsert k = UpsertOutcome.ok b) :
    ∀ (recs : List AnimeRecord) (i : Nat) (s : Stats) (stop : Bool) (tr : List Ev),
      (runLoop w sd n i s stop tr recs).err = none := by
  intro recs
  induction recs with
  | nil => intro i s stop tr; rfl
  | cons a rest ih =>
    intro i s stop tr
    cases stop with
    | true => simp [runLoop]
    | false =>
      obtain ⟨o, evs, hp⟩ := processRecord_no_err w i n a hups
      simp [runLoop, hp, ih]

/-- C1: for every run that produces a report, `stats.total` equals the
length of the enumeration snapshot (it is fixed at enumeration time and
never recomputed); and whenever the run completes without being stopped,
`updated + failed + notFound = total`. -/
theorem c1_total_and_counter_sum (w : World) (recs : List AnimeRecord)
    (stopEnum : Bool) (sd : Nat → Bool) (st : GState) (stats : Stats)
    (stopped : Bool) (msg : String)
    (hidle : st.isUpdating = false)
    (hrun : (updateRatings w (.ok ()) (.ok recs) stopEnum sd st).1 =
      Except.ok (RunResult.report stats stopped msg)) :
    stats.total = recs.length ∧
    (stopped = false → stats.updated + stats.failed + stats.notFound = stats.total) := by
  simp only [updateRatings, hidle, Bool.false_eq_true, if_false] at hrun
  cases recs with
  | nil => simp [runAccepted] at hrun
  | cons a rest =>
    simp only [runAccepted] at hrun
    rcases hlo : (loopOf w sd stopEnum (a :: rest)).err with _ | e
    · rw [hlo] at hrun
      simp only [Except.ok.injEq, RunResult.report.injEq] at hrun
      obtain ⟨hstats, hstopped, -⟩ := hrun
      have htot : (loopOf w sd stopEnum (a :: rest)).stats.total = (a :: rest).length := by
        rw [loopOf]
        exact runLoop_total w sd (a :: rest).length (a :: rest) 0
          ⟨(a :: rest).length, 0, 0, 0⟩ stopEnum []
      constructor
      · rw [← hstats]; exact htot
      · intro hsf
        have hflag : (loopOf w sd stopEnum (a :: rest)).stopFlag = false := by
          rw [hstopped]; exact hsf
        have herr := hlo
        rw [loopOf] at hflag herr hstats htot
        have hsum := runLoop_complete w sd (a :: rest).length (a :: rest) 0
          ⟨(a :: rest).length, 0, 0, 0⟩ stopEnum [] herr hflag
        rw [← hstats]
        simp only [sumS] at hsum
        rw [htot]
        simpa using hsum
    · rw [hlo] at hrun
      simp at hrun

/-- Witness for C1 on a two-record run: one record updated, one not found,
`total = 2 = 1 + 0 + 1`. -/
theorem c1_witness :
    (⟨2, 1, 0, 1⟩ : Stats).total = ([rec1, rec2] : List AnimeRecord).length ∧
    (false = false →
      (⟨2, 1, 0, 1⟩ : Stats).updated + (⟨2, 1, 0, 1⟩ : Stats).failed +
        (⟨2, 1, 0, 1⟩ : Stats).notFound = (⟨2, 1, 0, 1⟩ : Stats).total) :=
  c1_total_and_counter_sum w1 [rec1, rec2] false (fun _ => false) ⟨false, []⟩
    ⟨2, 1, 0, 1⟩ false ("Update completed") rfl (by decide)

theorem beginsOf_append (a b : List Ev) :
    beginsOf (a ++ b) = beginsOf a ++ beginsOf b := by
  simp [beginsOf]

theorem beginsOf_tryTitle (t : String) (o : SearchOutcome) :
    beginsOf (tryTitle t o).2 = [] := by
  match o with
  | .transportError m => simp [tryTitle, beginsOf, lg]
  | .noData => simp [tryTitle, beginsOf, lg]
  | .results [] => simp [tryTitle, beginsOf, lg]
  | .results (r :: rest) =>
    cases hf : (r :: rest).find? (fun x => matchesTitle t x) <;>
      simp [tryTitle, hf, beginsOf, lg]

theorem beginsOf_findAnimeIdGo (search : String → SearchOutcome) :
    ∀ ts : List String, beginsOf (findAnimeIdGo search ts).2 = [] := by
  intro ts
  induction ts with
  | nil => rfl
  | cons t ts ih =>
    have hb := beginsOf_tryTitle t (search t)
    rcases h1 : tryTitle t (search t) with ⟨o1, evs1⟩
    rw [h1] at hb
    simp only at hb
    cases o1 with
    | some id => simp [findAnimeIdGo, h1, hb]
    | none => simp [findAnimeIdGo, h1, beginsOf_append, hb, ih]

theorem beginsOf_findAnimeId (search : String → SearchOutcome) (a : AnimeRecord) :
    beginsOf (findAnimeId search a).2 = [] := by
  by_cases h : searchTitles a = []
  · simp [findAnimeId, h, beginsOf, lg]
  · simp [findAnimeId, h, beginsOf_findAnimeIdGo]

theorem beginsOf_getShikimoriData (id : String) (o : DetailOutcome) :
    beginsOf (getShikimoriData id o).2 = [] := by
  match o with
  | .transportError m => simp [getShikimoriData, beginsOf, lg]
  | .ok .noData => simp [getShikimoriData, beginsOf, lg]
  | .ok .animesNull => simp [getShikimoriData, beginsOf, lg]
  | .ok (.animes []) => simp [getShikimoriData, beginsOf, lg]
  | .ok (.animes (a :: l)) => simp [getShikimoriData, beginsOf, lg]

/-- Processing one record emits no begin-record marker of its own (the loop
adds it), so the per-record trace contributes nothing to `beginsOf`. -/
theorem beginsOf_processRecord (w : World) (i n : Nat) (a : AnimeRecord) :
    beginsOf (processRecord w i n a).2 = [] := by
  have hbf := beginsOf_findAnimeId w.search a
  rcases hf : findAnimeId w.search a with ⟨oid, evs⟩
  rw [hf] at hbf
  simp only at hbf
  cases oid with
  | none =>
    simp only [processRecord, hf, beginsOf_append, hbf]
    rfl
  | some id =>
    have hbg := beginsOf_getShikimoriData id (w.detail id)
    rcases hg : getShikimoriData id (w.detail id) with ⟨od, evs2⟩
    rw [hg] at hbg
    simp only at hbg
    cases od with
    | none =>
      simp only [processRecord, hf, hg, beginsOf_append, hbf, hbg]
      rfl
    | some d =>
      cases hu : w.upsert a.key with
      | err e =>
        simp only [processRecord, hf, hg, hu, beginsOf_append, hbf, hbg]
        rfl
      | ok b =>
        simp only [processRecord, hf, hg, hu, beginsOf_append, hbf, hbg]
        rfl

/-- Once `shouldStop` is set, the loop exits at the very next check without
touching the stats or the trace; the exit is attributed to the stop check
exactly when records remain. -/
theorem runLoop_already_stopped (w : World) (sd : Nat → Bool) (n : Nat)
    (i : Nat) (s : Stats) (tr : List Ev) :
    ∀ recs : List AnimeRecord,
      (runLoop w sd n i s true tr recs).stats = s ∧
      (runLoop w sd n i s true tr recs).stopFlag = true ∧
      (runLoop w sd n i s true tr recs).trace = tr ∧
      (runLoop w sd n i s true tr recs).err = none ∧
      (runLoop w sd n i s true tr recs).exitedByStop = !recs.isEmpty := by
  intro recs
  cases recs with
  | nil => exact ⟨rfl, rfl, rfl, rfl, rfl⟩
  | cons a rest => simp [runLoop]

/-- Characterization of a run whose first stop delivery happens while
record `i0` is being processed: the loop processes exactly the records up
to and including `i0`, ends with the stop flag set, and is recorded as
having exited through the stop check iff records remained after `i0`. -/
theorem runLoop_first_stop (w : World) (sd : Nat → Bool) (n i0 : Nat)
    (hups : ∀ k, ∃ b, w.upsert k = UpsertOutcome.ok b)
    (hfirst : ∀ j, j < i0 → sd j = false) (hat : sd i0 = true) :
    ∀ (recs : List AnimeRecord) (i : Nat) (s : Stats) (tr : List Ev), i ≤ i0 →
      ((runLoop w sd n i s false tr recs).stopFlag = true ↔ i0 < i + recs.length) ∧
      ((runLoop w sd n i s false tr recs).exitedByStop = true ↔ i0 + 1 < i + recs.length) ∧
      beginsOf (runLoop w sd n i s false tr recs).trace =
        beginsOf tr ++ List.range' i (min (i0 + 1 - i) recs.length) ∧
      sumS (runLoop w sd n i s false tr recs).stats = sumS s + min (i0 + 1 - i) recs.length := by
  intro recs
  induction recs with
  | nil =>
    intro i s tr hi
    refine ⟨?_, ?_, ?_, ?_⟩ <;> (simp [runLoop]; try omega)
  | cons a rest ih =>
    intro i s tr hi
    obtain ⟨o, evs, hp⟩ := processRecord_no_err w i n a hups
    have hbe : beginsOf evs = [] := by
      have h0 := beginsOf_processRecord w i n a
      rw [hp] at h0
      exact h0
    have hstep : runLoop w sd n i s false tr (a :: rest) =
        runLoop w sd n (i + 1) (bump s o) (sd i) (tr ++ Ev.beginRecord i :: evs) rest := by
      simp [runLoop, hp]
    have hcons : beginsOf (Ev.beginRecord i :: evs) = i :: beginsOf evs := by
      simp [beginsOf]
    have hbtr : beginsOf (tr ++ Ev.beginRecord i :: evs) = beginsOf tr ++ [i] := by
      rw [beginsOf_append, hcons, hbe]
    rcases Nat.lt_or_ge i i0 with hlt | hge
    · -- the stop has not been delivered yet: recurse
      have hsd : sd i = false := hfirst i hlt
      rw [hsd] at hstep
      have hrec := ih (i + 1) (bump s o) (tr ++ Ev.beginRecord i :: evs) (by omega)
      obtain ⟨h1, h2, h3, h4⟩ := hrec
      rw [hstep]
      refine ⟨h1.trans (by simp only [List.length_cons]; omega),
        h2.trans (by simp only [List.length_cons]; omega), ?_, ?_⟩
      · rw [h3, hbtr]
        have hm : min (i0 + 1 - i) (a :: rest).length = min (i0 + 1 - (i + 1)) rest.length + 1 := by
          simp only [List.length_cons]
          omega
        rw [hm, List.range'_succ i (min (i0 + 1 - (i + 1)) rest.length) 1]
        simp
      · rw [h4, sumS_bump]
        simp only [List.length_cons]
        omega
    · -- i = i0: this record is the last one processed
      have hieq : i = i0 := by omega
      subst hieq
      rw [hat] at hstep
      obtain ⟨hs1, hs2, hs3, hs4, hs5⟩ :=
        runLoop_already_stopped w sd n (i + 1) (bump s o) (tr ++ Ev.beginRecord i :: evs) rest
      rw [hstep]
      refine ⟨?_, ?_, ?_, ?_⟩
      · rw [hs2]
        simp only [List.length_cons, true_iff]
        omega
      · rw [hs5]
        cases rest with
        | nil => simp
        | cons b rest2 =>
          simp only [List.isEmpty_cons, Bool.not_false, List.length_cons, true_iff]
          omega
      · rw [hs3, hbtr]
        have hm : min (i + 1 - i) (a :: rest).length = 1 := by
          simp only [List.length_cons]
          omega
        rw [hm]
        simp [List.range']
      · rw [hs1, sumS_bump]
        have hm : min (i + 1 - i) (a :: rest).length = 1 := by
          simp only [List.length_cons]
          omega
        rw [hm]

/-- C3 (amended): after a stop request delivered while record `i0` is being
processed, no record with index greater than `i0` begins processing, the
counter sum stays at most `stats.total`, and the report's `stopped` flag is
true.  The claim's final iff is corrected: the flag equals "a stop was
requested during the run", and the loop is recorded as exiting through the
stop check iff records remained after `i0` — a stop delivered during the
last record leaves `stopped = true` even though the loop exits by
exhausting the records. -/
theorem c3_stop_request (w : World) (recs : List AnimeRecord) (sd : Nat → Bool)
    (st : GState) (i0 : Nat)
    (hidle : st.isUpdating = false)
    (hups : ∀ k, ∃ b, w.upsert k = UpsertOutcome.ok b)
    (hfirst : ∀ j, j < i0 → sd j = false) (hat : sd i0 = true)
    (hlt : i0 < recs.length) :
    (updateRatings w (.ok ()) (.ok recs) false sd st).1 =
      Except.ok (RunResult.report (loopOf w sd false recs).stats true ("Update stopped")) ∧
    (∀ j, j ∈ beginsOf (loopOf w sd false recs).trace → j ≤ i0) ∧
    sumS (loopOf w sd false recs).stats ≤ (loopOf w sd false recs).stats.total ∧
    ((loopOf w sd false recs).exitedByStop = true ↔ i0 + 1 < recs.length) := by
  cases recs with
  | nil => simp at hlt
  | cons a rest =>
    obtain ⟨h1, h2, h3, h4⟩ := runLoop_first_stop w sd (a :: rest).length i0 hups hfirst hat
      (a :: rest) 0 ⟨(a :: rest).length, 0, 0, 0⟩ [] (Nat.zero_le i0)
    have herr : (loopOf w sd false (a :: rest)).err = none := by
      rw [loopOf]
      exact runLoop_no_err w sd (a :: rest).length hups (a :: rest) 0
        ⟨(a :: rest).length, 0, 0, 0⟩ false []
    have hflag : (loopOf w sd false (a :: rest)).stopFlag = true := by
      rw [loopOf]
      exact h1.mpr (by omega)
    have htot : (loopOf w sd false (a :: rest)).stats.total = (a :: rest).length := by
      rw [loopOf]
      exact runLoop_total w sd (a :: rest).length (a :: rest) 0
        ⟨(a :: rest).length, 0, 0, 0⟩ false []
    refine ⟨?_, ?_, ?_, ?_⟩
    · simp only [updateRatings, hidle, Bool.false_eq_true, if_false, runAccepted]
      rw [herr]  -- hmm: match on (loopOf ...).err
      rw [hflag]
      simp
    · intro j hj
      rw [loopOf] at hj
      rw [h3] at hj
      simp only [beginsOf, List.filterMap_nil, List.nil_append] at hj
      have := List.mem_range'_1.mp hj
      omega
    · rw [loopOf] at htot ⊢
      rw [h4, htot]
      simp only [sumS]
      omega
    · rw [loopOf]
      exact h2.trans (by simp)

/-- Witness for C3 (amended): two records, stop delivered during record 0;
record 1 never begins, the counter sum is 1 of 2, the report says stopped,
and the loop exited through the stop check. -/
theorem c3_witness :
    ((updateRatings w1 (.ok ()) (.ok [rec1, rec2]) false (fun _ => true) ⟨false, []⟩).1 =
      Except.ok (RunResult.report (loopOf w1 (fun _ => true) false [rec1, rec2]).stats true
        ("Update stopped"))) ∧
    (∀ j, j ∈ beginsOf (loopOf w1 (fun _ => true) false [rec1, rec2]).trace → j ≤ 0) ∧
    sumS (loopOf w1 (fun _ => true) false [rec1, rec2]).stats ≤
      (loopOf w1 (fun _ => true) false [rec1, rec2]).stats.total ∧
    ((loopOf w1 (fun _ => true) false [rec1, rec2]).exitedByStop = true ↔ 0 + 1 < ([rec1, rec2] : List AnimeRecord).length) :=
  c3_stop_request w1 [rec1, rec2] (fun _ => true) ⟨false, []⟩ 0 rfl
    (fun k => ⟨true, rfl⟩) (fun j hj => absurd hj (by omega)) rfl (by decide)

/-- Counterexample to C3 as stated: with a single record and a stop
delivered while it is processed, the report's stopped flag is true even
though the loop exited by exhausting the records (all records processed,
`updated + failed + notFound = total`), so the claimed iff "stopped ↔
exited due to the stop request rather than exhaustion" fails. -/
theorem c3_counterexample :
    (updateRatings w1 (.ok ()) (.ok [rec1]) false (fun _ => true) ⟨false, []⟩).1 =
      Except.ok (RunResult.report ⟨1, 1, 0, 0⟩ true ("Update stopped")) ∧
    (loopOf w1 (fun _ => true) false [rec1]).exitedByStop = false := by
  exact ⟨by decide, by decide⟩

/-- C4 (amended): a start while a run is active is rejected with the
already-in-progress error (never queued) and does not reset the in-progress
Progress Log or stats — but it is not free of side effects: it appends one
warning entry to the Progress Log.  An accepted start resets the Progress
Log: its final content is independent of whatever the buffer held before,
and the stats start fresh. -/
theorem c4_guard_and_reset :
    (∀ (w : World) (cR : Except String Unit) (fR : Except String (List AnimeRecord))
       (sE : Bool) (sd : Nat → Bool) (l : List LogEntry),
      updateRatings w cR fR sE sd ⟨true, l⟩ =
        (Except.ok (RunResult.errorResult ("Update already in progress")),
         ⟨true, l ++ [⟨.alreadyInProgress, .warn⟩]⟩, [])) ∧
    (∀ (w : World) (cR : Except String Unit) (fR : Except String (List AnimeRecord))
       (sE : Bool) (sd : Nat → Bool) (l : List LogEntry),
      updateRatings w cR fR sE sd ⟨false, l⟩ = updateRatings w cR fR sE sd ⟨false, []⟩) :=
  ⟨fun _ _ _ _ _ _ => rfl, fun _ _ _ _ _ _ => rfl⟩

/-- Counterexample to C4 as stated: a rejected start leaves the in-progress
run's Progress Log CHANGED — starting from an empty buffer, the buffer is
non-empty afterwards (an already-in-progress warning was appended). -/
theorem c4_counterexample :
    (updateRatings w1 (.ok ()) (.ok [rec1]) false (fun _ => false)
      ⟨true, []⟩).2.1.logStream ≠ [] := by
  decide

/-- C5 (amended): a Record Store failure at enumeration time — at connect
or at find — aborts the run before any record begins processing; search
and detail-fetch failures never abort the loop (when no upsert rejects,
the run always returns a non-exceptional result); but a store write
failure while processing a record aborts the entire run rather than being
converted into a counter increment (see the counterexample). -/
theorem c5_abort_only_enumeration_or_upsert :
    (∀ (w : World) (fR : Except String (List AnimeRecord)) (sE : Bool)
       (sd : Nat → Bool) (l : List LogEntry) (e : String),
      (updateRatings w (.error e) fR sE sd ⟨false, l⟩).1 = Except.error e ∧
      beginsOf (updateRatings w (.error e) fR sE sd ⟨false, l⟩).2.2 = []) ∧
    (∀ (w : World) (sE : Bool) (sd : Nat → Bool) (l : List LogEntry) (e : String),
      (updateRatings w (.ok ()) (.error e) sE sd ⟨false, l⟩).1 = Except.error e ∧
      beginsOf (updateRatings w (.ok ()) (.error e) sE sd ⟨false, l⟩).2.2 = []) ∧
    (∀ (w : World) (recs : List AnimeRecord) (sE : Bool) (sd : Nat → Bool) (st : GState),
      st.isUpdating = false → (∀ k, ∃ b, w.upsert k = UpsertOutcome.ok b) →
      ∃ rr, (updateRatings w (.ok ()) (.ok recs) sE sd st).1 = Except.ok rr) := by
  refine ⟨?_, ?_, ?_⟩
  · intro w fR sE sd l e
    exact ⟨rfl, by simp [updateRatings, runAccepted, beginsOf, lg]⟩
  · intro w sE sd l e
    exact ⟨rfl, by simp [updateRatings, runAccepted, beginsOf, lg]⟩
  · intro w recs sE sd st hidle hups
    cases recs with
    | nil =>
      refine ⟨RunResult.errorResult ("No anime found in database"), ?_⟩
      simp [updateRatings, hidle, runAccepted]
    | cons a rest =>
      have herr : (loopOf w sd sE (a :: rest)).err = none := by
        rw [loopOf]
        exact runLoop_no_err w sd (a :: rest).length hups (a :: rest) 0
          ⟨(a :: rest).length, 0, 0, 0⟩ sE []
      refine ⟨RunResult.report (loopOf w sd sE (a :: rest)).stats
        (loopOf w sd sE (a :: rest)).stopFlag
        (if (loopOf w sd sE (a :: rest)).stopFlag then ("Update stopped")
         else ("Update completed")), ?_⟩
      simp only [updateRatings, hidle, Bool.false_eq_true, if_false, runAccepted]
      rw [herr]

/-- Witness for C5 (amended): an enumeration failure aborts with no record
begun, and a run whose upserts all succeed returns a non-exceptional
result. -/
theorem c5_witness :
    ((updateRatings w1 (.error ("boom")) (.ok []) false (fun _ => false)
        ⟨false, []⟩).1 = Except.error ("boom") ∧
      beginsOf (updateRatings w1 (.error ("boom")) (.ok []) false (fun _ => false)
        ⟨false, []⟩).2.2 = []) ∧
    (∃ rr, (updateRatings w1 (.ok ()) (.ok [rec1, rec2]) false (fun _ => false)
      ⟨false, []⟩).1 = Except.ok rr) :=
  ⟨c5_abort_only_enumeration_or_upsert.1 w1 (.ok []) false (fun _ => false) [] ("boom"),
   c5_abort_only_enumeration_or_upsert.2.2 w1 [rec1, rec2] false (fun _ => false)
     ⟨false, []⟩ rfl (fun _ => ⟨true, rfl⟩)⟩

/-- Counterexample to C5 as stated: a store write failure while processing
record 0 aborts the whole run — the run result is the propagated exception
(no report), and record 1 never begins processing. -/
theorem c5_counterexample :
    (updateRatings wErr (.ok ()) (.ok [rec1, rec2]) false (fun _ => false) ⟨false, []⟩).1 =
      Except.error ("write failed") ∧
    Ev.beginRecord 1 ∉
      (updateRatings wErr (.ok ()) (.ok [rec1, rec2]) false (fun _ => false) ⟨false, []⟩).2.2 := by
  exact ⟨by decide, by decide⟩

/-- C6 (amended): calling upsert with a record key that no longer exists in
the store is safe — MongoDB `updateOne` resolves with matched count 0, no
exception — but the record is counted as `updated`, not `failed`, because
the code never inspects the matched count. -/
theorem c6_missing_key_safe_counts_updated (store : List Nat) (w : World)
    (a : AnimeRecord) (i n : Nat) (id : String) (d : ShikiData)
    (hup : w.upsert a.key = mongoUpdateOne store a.key)
    (hkey : store.contains a.key = false)
    (hfind : (findAnimeId w.search a).1 = some id)
    (hdata : (getShikimoriData id (w.detail id)).1 = some d) :
    (processRecord w i n a).1 = Except.ok ProcOutcome.updated := by
  rcases hf : findAnimeId w.search a with ⟨oid, evs⟩
  rw [hf] at hfind
  simp only at hfind
  subst hfind
  rcases hg : getShikimoriData id (w.detail id) with ⟨od, evs2⟩
  rw [hg] at hdata
  simp only at hdata
  subst hdata
  have hu : w.upsert a.key = UpsertOutcome.ok false := by
    rw [hup, mongoUpdateOne, hkey]
  simp [processRecord, hf, hg, hu]

/-- Witness for C6 (amended): `rec1` resolves and fetches, its key is
missing from the (empty) store, and the outcome is `updated`. -/
theorem c6_witness :
    (processRecord wMiss 0 1 rec1).1 = Except.ok ProcOutcome.updated :=
  c6_missing_key_safe_counts_updated [] wMiss rec1 0 1 ("X") (mkShikiData d1)
    rfl rfl (by decide) (by decide)

/-- Counterexample to C6 as stated: a run over one record whose key is
missing from the store ends with `updated = 1` and `failed = 0` — the
missing-key upsert was counted as updated, not failed. -/
theorem c6_counterexample :
    (updateRatings wMiss (.ok ()) (.ok [rec1]) false (fun _ => false) ⟨false, []⟩).1 =
      Except.ok (RunResult.report ⟨1, 1, 0, 0⟩ false ("Update completed")) := by
  decide

/-- C7: for every record whose candidate-title list is empty, no search,
detail-fetch, or upsert call is issued, and the record's outcome is counted
as notFound, never as failed. -/
theorem c7_no_titles_not_found (w : World) (i n : Nat) (a : AnimeRecord)
    (h : searchTitles a = []) :
    (processRecord w i n a).1 = Except.ok ProcOutcome.notFound ∧
    externalCalls (processRecord w i n a).2 = [] := by
  simp [processRecord, findAnimeId, h, externalCalls, lg]

/-- Witness for C7 at the record `rec2`, which has no candidate titles. -/
theorem c7_witness :
    (processRecord w1 0 1 rec2).1 = Except.ok ProcOutcome.notFound ∧
    externalCalls (processRecord w1 0 1 rec2).2 = [] :=
  c7_no_titles_not_found w1 0 1 rec2 (by decide)

/-- C8: on every exit path of an accepted run — normal exhaustion,
stop-requested exit, the empty-store early return, or an exception raised
anywhere in the run body — the `isUpdating` flag is cleared, so after
`updateRatings` returns or rethrows, `isUpdating` is false. -/
theorem c8_running_cleared (w : World) (connectR : Except String Unit)
    (findR : Except String (List AnimeRecord)) (stopEnum : Bool)
    (sd : Nat → Bool) (st : GState) (h : st.isUpdating = false) :
    (updateRatings w connectR findR stopEnum sd st).2.1.isUpdating = false := by
  simp [updateRatings, h]

/-- Witness for C8 on a normal two-record run. -/
theorem c8_witness :
    (updateRatings w1 (.ok ()) (.ok [rec1, rec2]) false (fun _ => false)
      ⟨false, []⟩).2.1.isUpdating = false :=
  c8_running_cleared w1 (.ok ()) (.ok [rec1, rec2]) false (fun _ => false) ⟨false, []⟩ rfl

/-- C9: the detail fetcher is total — for every identifier and transport
outcome it returns either a normalized bundle or `none` and never raises;
the transport-error case and the empty/absent-result cases all yield the
same `none`, indistinguishable to the caller. -/
theorem c9_detail_fetcher_total (id msg : String) (o : DetailOutcome) :
    (getShikimoriData id (.transportError msg)).1 = none ∧
    (getShikimoriData id (.ok (.animes []))).1 = none ∧
    (getShikimoriData id (.ok .noData)).1 = none ∧
    (getShikimoriData id (.ok .animesNull)).1 = none ∧
    ((getShikimoriData id o).1 = none ∨ ∃ d, (getShikimoriData id o).1 = some d) := by
  refine ⟨rfl, rfl, rfl, rfl, ?_⟩
  match o with
  | .transportError m => exact Or.inl rfl
  | .ok .noData => exact Or.inl rfl
  | .ok .animesNull => exact Or.inl rfl
  | .ok (.animes []) => exact Or.inl rfl
  | .ok (.animes (a :: l)) => exact Or.inr ⟨mkShikiData a, rfl⟩

/-- C10: if the store is reachable but enumeration yields zero records, the
run returns the bare error result (no stats object at all) and still clears
the running flag. -/
theorem c10_empty_enumeration (w : World) (stopEnum : Bool) (sd : Nat → Bool)
    (st : GState) (h : st.isUpdating = false) :
    (updateRatings w (.ok ()) (.ok []) stopEnum sd st).1 =
      Except.ok (RunResult.errorResult ("No anime found in database")) ∧
    (updateRatings w (.ok ()) (.ok []) stopEnum sd st).2.1.isUpdating = false := by
  simp [updateRatings, h, runAccepted]

/-- Witness for C10 with an empty enumeration in `w1`. -/
theorem c10_witness :
    (updateRatings w1 (.ok ()) (.ok []) false (fun _ => false) ⟨false, []⟩).1 =
      Except.ok (RunResult.errorResult ("No anime found in database")) ∧
    (updateRatings w1 (.ok ()) (.ok []) false (fun _ => false) ⟨false, []⟩).2.1.isUpdating = false :=
  c10_empty_enumeration w1 false (fun _ => false) ⟨false, []⟩ rfl

end CronServer
